import Mathlib

/-!
# threads: a client for the Threads web API (Go package `threads`)

A shallow embedding of `threads.go`.

* A Go `string` and a Go `[]byte` are sequences of bytes (`GoString`), never
  decoded; a `[]byte` that comes out of `io.ReadAll` also has the spare
  capacity of its backing array (`Slice`), because a Go slice expression on a
  slice is bounded by the capacity, not by the length.
* Go's multiple return values `(v, err)` and a run-time panic are the two
  constructors of `Outcome`.
* The network is explicit: an `*http.Client` is a function from the request to
  what `Do` returns, every function of the package also returns the list of
  requests it handed to a client (`sent`), and `http.DefaultClient` is a
  parameter.
* `http.Header` is a Go map, a reference: `req.Header = headers` shares the
  caller's map with the request.  `Do` therefore also returns the request's
  header map as it leaves it, and every method returns the client as the call
  leaves it.
-/

namespace Threads

/-! ## Bytes and strings -/

/-- A Go `string` (or the contents of a `[]byte`): a sequence of bytes. -/
abbrev GoString := List UInt8

/-- The bytes of an ASCII string literal of the source. -/
def str (s : String) : GoString := s.toList.map (fun ch => ch.toNat.toUInt8)

/-- A `[]byte` with its backing array: `data` are the `len` bytes of the slice,
`spare` the bytes of the backing array between `len` and `cap`. -/
structure Slice where
  data : GoString
  spare : GoString
  deriving DecidableEq, Repr

/-- Go error values: `errors.New`/`fmt.Errorf` strings, the `*url.Error` of a URL
that does not parse, and errors produced outside the package (by the transport
or the body reader). -/
inductive GoError where
  | errorString (s : String)
  | urlError (url : GoString)
  | external (msg : String)
  deriving DecidableEq, Repr

/-- A Go call that returns `(val, err)`, or panics. -/
inductive Outcome (α : Type) where
  | ret (val : α) (err : Option GoError)
  | panic (msg : String)
  deriving DecidableEq, Repr

/-- Go `len(s)` as a Go `int`. -/
def Slice.len (s : Slice) : Int := s.data.length

/-- Go `cap(s)` as a Go `int`. -/
def Slice.cap (s : Slice) : Int := s.data.length + s.spare.length

/-- The slice expression `s[lo:hi]` on a `[]byte`, as the bytes it denotes: in
range when `0 <= lo <= hi <= cap(s)`, a run-time panic otherwise. -/
def Slice.slice (s : Slice) (lo hi : Int) : Option GoString :=
  if 0 ≤ lo ∧ lo ≤ hi ∧ hi ≤ s.cap then
    some (((s.data ++ s.spare).drop lo.toNat).take (hi.toNat - lo.toNat))
  else none

/-- Helper for `bytes.Index`: the index of the first occurrence of `sep` in `s`,
counted from `i`. -/
def indexFrom (sep : GoString) : GoString → Nat → Option Nat
  | [], i => if sep = [] then some i else none
  | b :: s, i => if sep.isPrefixOf (b :: s) then some i else indexFrom sep s (i + 1)

/-- Go `bytes.Index(s, sep)`: the index of the first instance of `sep` in `s`, or
`-1` if `sep` is not present. -/
def bytesIndex (s sep : GoString) : Int :=
  match indexFrom sep s 0 with
  | some i => (i : Int)
  | none => -1

/-- Go `strconv.Itoa` / the `%d` verb on an `int`: the decimal rendering. -/
def itoa (n : Int) : GoString := str (toString n)

/-! ## `net/textproto` and `net/http` headers -/

/-- Go `textproto.validHeaderFieldByte`: the bytes of an HTTP token. -/
def validHeaderFieldByte (c : UInt8) : Bool :=
  (48 ≤ c && c ≤ 57) || (97 ≤ c && c ≤ 122) || (65 ≤ c && c ≤ 90) ||
  c = 33 || c = 35 || c = 36 || c = 37 || c = 38 || c = 39 || c = 42 || c = 43 ||
  c = 45 || c = 46 || c = 94 || c = 95 || c = 96 || c = 124 || c = 126

/-- The second loop of Go `textproto.canonicalMIMEHeaderKey`: first letter and every
letter after a dash in upper case, the others in lower case. -/
def canonLoop : Bool → GoString → GoString
  | _, [] => []
  | upper, c :: rest =>
    let c1 : UInt8 :=
      if upper && 97 ≤ c && c ≤ 122 then c - 32
      else if !upper && 65 ≤ c && c ≤ 90 then c + 32
      else c
    c1 :: canonLoop (c1 = 45) rest

/-- Go `textproto.CanonicalMIMEHeaderKey`: a key with a byte that is no token byte
(a space included) is returned unchanged, any other key in canonical form. -/
def CanonicalMIMEHeaderKey (s : GoString) : GoString :=
  if s.all validHeaderFieldByte then canonLoop true s else s

/-- The entries of a non-nil `map[string][]string`, in insertion order. -/
abbrev HeaderMap := List (GoString × List GoString)

/-- Go `http.Header` (also `url.Values`): `none` is the nil map. -/
abbrev Header := Option HeaderMap

/-- The map index expression `m[key]`: the values, `nil` (empty) if absent. -/
def HeaderMap.lookup (m : HeaderMap) (key : GoString) : List GoString :=
  match m with
  | [] => []
  | (k, v) :: rest => if k = key then v else HeaderMap.lookup rest key

/-- The map assignment `m[key] = vs`. -/
def HeaderMap.assign (m : HeaderMap) (key : GoString) (vs : List GoString) : HeaderMap :=
  match m with
  | [] => [(key, vs)]
  | (k, v) :: rest =>
    if k = key then (k, vs) :: rest else (k, v) :: HeaderMap.assign rest key vs

/-- Go `delete(m, key)`. -/
def HeaderMap.delete (m : HeaderMap) (key : GoString) : HeaderMap :=
  m.filter (fun e => e.1 ≠ key)

/-- Go `Header.Add`: `h[key] = append(h[key], value)` on the canonical key.  `none`
is the panic of an assignment to an entry in a nil map. -/
def Header.Add (h : Header) (key value : GoString) : Option Header :=
  match h with
  | none => none
  | some m =>
    let k := CanonicalMIMEHeaderKey key
    some (some (m.assign k (m.lookup k ++ [value])))

/-- Go `Header.Set`: `h[key] = []string{value}` on the canonical key. -/
def Header.Set (h : Header) (key value : GoString) : Option Header :=
  match h with
  | none => none
  | some m => some (some (m.assign (CanonicalMIMEHeaderKey key) [value]))

/-- Go `Header.Del`: deletes the canonical key; a no-op on a nil map. -/
def Header.Del (h : Header) (key : GoString) : Header :=
  h.map (fun m => m.delete (CanonicalMIMEHeaderKey key))

/-- Go `Header.Values`: all values of the canonical key. -/
def Header.Values (h : Header) (key : GoString) : List GoString :=
  match h with
  | none => []
  | some m => m.lookup (CanonicalMIMEHeaderKey key)

/-- Go `Header.Get`: the first value of the canonical key, or the empty string. -/
def Header.Get (h : Header) (key : GoString) : GoString :=
  (Header.Values h key).headD []

/-- Go `Header.Clone`: a copy of the map (nil for nil).  The copy has the same
entries; it is a different map, so later changes to it do not reach `h`. -/
def Header.Clone (h : Header) : Header := h

/-! ## `encoding/json`, `net/url` -/

/-- Go string comparison `a <= b`: bytewise lexicographic. -/
def strLE : GoString → GoString → Bool
  | [], _ => true
  | _ :: _, [] => false
  | a :: as, b :: bs => a < b || (a = b && strLE as bs)

/-- Insertion of an entry into a list of entries sorted by key. -/
def insertByKey {β : Type} (e : GoString × β) : List (GoString × β) → List (GoString × β)
  | [] => [e]
  | x :: xs => if strLE e.1 x.1 then e :: x :: xs else x :: insertByKey e xs

/-- The entries of a map in the order of their keys (`sort.Strings` on the keys). -/
def sortByKey {β : Type} (m : List (GoString × β)) : List (GoString × β) :=
  m.foldr insertByKey []

/-- Go `strings.Join(parts, sep)`. -/
def joinWith (sep : GoString) : List GoString → GoString
  | [] => []
  | [x] => x
  | x :: y :: rest => x ++ sep ++ joinWith sep (y :: rest)

/-- Go `json.Marshal` on a `map[string]int` whose keys are plain ASCII words (letters,
digits, underscore: every key of the source is one), so that a key is written between
double quotes with nothing to escape: `{"k1":v1,"k2":v2}` with the keys sorted.
Marshalling such a map never fails. -/
def jsonMarshal (vars : List (GoString × Int)) : GoString :=
  str "\x7b" ++
    joinWith (str ",")
      ((sortByKey vars).map (fun e => str "\"" ++ e.1 ++ str "\":" ++ itoa e.2)) ++
  str "\x7d"

/-- Go `url.shouldEscape(c, encodeQueryComponent)`: everything but the unreserved
characters (letters, digits, `-` `_` `.` `~`) is escaped. -/
def shouldEscape (c : UInt8) : Bool :=
  !((97 ≤ c && c ≤ 122) || (65 ≤ c && c ≤ 90) || (48 ≤ c && c ≤ 57) ||
    c = 45 || c = 95 || c = 46 || c = 126)

/-- The digit of `"0123456789ABCDEF"` at index `n` (`n < 16`). -/
def upperhex (n : UInt8) : UInt8 := if n < 10 then 48 + n else 55 + n

/-- Go `url.QueryEscape`: a space becomes `+`, a byte to escape becomes `%XX`. -/
def QueryEscape : GoString → GoString
  | [] => []
  | c :: rest =>
    if c = 32 then 43 :: QueryEscape rest
    else if shouldEscape c then 37 :: upperhex (c >>> 4) :: upperhex (c &&& 15) :: QueryEscape rest
    else c :: QueryEscape rest

/-- Go `url.Values.Set`: `v[key] = []string{value}`. -/
def Values.Set (v : HeaderMap) (key value : GoString) : HeaderMap := v.assign key [value]

/-- Go `url.Values.Encode`: `key=value` pairs, escaped, sorted by key, joined by `&`. -/
def Values.Encode (v : HeaderMap) : GoString :=
  joinWith (str "&")
    ((sortByKey v).flatMap (fun e => e.2.map (fun val => QueryEscape e.1 ++ str "=" ++ QueryEscape val)))

/-- Go `url.ishex`. -/
def ishex (c : UInt8) : Bool :=
  (48 ≤ c && c ≤ 57) || (97 ≤ c && c ≤ 102) || (65 ≤ c && c ≤ 70)

/-- The check of Go `url.unescape` in path and fragment mode: every `%` is followed by
two hexadecimal digits. -/
def validEscapes : GoString → Bool
  | [] => true
  | c :: rest =>
    if c = 37 then
      match rest with
      | a :: b :: rest2 => ishex a && ishex b && validEscapes rest2
      | _ => false
    else validEscapes rest

/-- Go `url.Parse` succeeds, for a URL that starts with `https://www.threads.net/`
(scheme and host are then fine): no ASCII control byte before the first `#`, and
valid `%` escapes in the path (up to the first `?`) and in the fragment (after the
first `#`). -/
def urlParses (rawURL : GoString) : Bool :=
  let u := rawURL.takeWhile (fun c => c ≠ 35)
  let frag := (rawURL.dropWhile (fun c => c ≠ 35)).drop 1
  let path := u.takeWhile (fun c => c ≠ 63)
  u.all (fun c => !(c < 32 || c = 127)) && validEscapes path && validEscapes frag

/-- Go `url.unhex`: the value of a hexadecimal digit. -/
def unhex (c : UInt8) : UInt8 :=
  if 48 ≤ c && c ≤ 57 then c - 48
  else if 97 ≤ c && c ≤ 102 then c - 97 + 10
  else if 65 ≤ c && c ≤ 70 then c - 65 + 10
  else 0

/-- Go `url.QueryUnescape`: `%XX` becomes the byte, `+` a space; `none` is the
`EscapeError` of a `%` that is not followed by two hexadecimal digits. -/
def QueryUnescape : GoString → Option GoString
  | [] => some []
  | c :: rest =>
    if c = 37 then
      match rest with
      | a :: b :: rest2 =>
        if ishex a && ishex b then
          (QueryUnescape rest2).map (fun t => ((unhex a <<< 4) ||| unhex b) :: t)
        else none
      | _ => none
    else if c = 43 then (QueryUnescape rest).map (fun t => 32 :: t)
    else (QueryUnescape rest).map (fun t => c :: t)

/-- Go `strings.Split(s, sep)` for a separator of one byte. -/
def splitOn (sep : UInt8) : GoString → List GoString
  | [] => [[]]
  | c :: rest =>
    if c = sep then [] :: splitOn sep rest
    else
      match splitOn sep rest with
      | [] => [[c]]
      | piece :: pieces => (c :: piece) :: pieces

/-- Go `strings.Cut(s, sep)` for a separator of one byte: the text before the first
separator and the text after it (empty when there is no separator). -/
def cut (sep : UInt8) (s : GoString) : GoString × GoString :=
  (s.takeWhile (fun c => c ≠ sep), (s.dropWhile (fun c => c ≠ sep)).drop 1)

/-- One round of the loop of Go `url.parseQuery`, on the piece between two `&`: a piece
with a `;` sets the error, an empty piece is skipped, a piece with a bad escape sets
the error if none is set, any other piece appends its value to its key. -/
def parsePiece (acc : HeaderMap × Option GoError) (piece : GoString) :
    HeaderMap × Option GoError :=
  if piece.contains 59 then
    (acc.1, some (GoError.errorString "invalid semicolon separator in query"))
  else if piece = [] then acc
  else
    match QueryUnescape (cut 61 piece).1, QueryUnescape (cut 61 piece).2 with
    | some key, some value => (acc.1.assign key (acc.1.lookup key ++ [value]), acc.2)
    | _, _ =>
      (acc.1, match acc.2 with
        | some e => some e
        | none => some (GoError.errorString "invalid URL escape"))

/-- Go `url.ParseQuery`: the form a query string (or a form-encoded body) denotes, and
the first error. -/
def ParseQuery (query : GoString) : HeaderMap × Option GoError :=
  (splitOn 38 query).foldl parsePiece ([], none)

/-! ## `net/http` requests, responses and clients -/

/-- A `context.Context` interface value: the nil interface, or a context. -/
inductive Context where
  | nil
  | live
  deriving DecidableEq, Repr

/-- The parts of an `*http.Request` the package sets. -/
structure Request where
  Method : GoString
  URL : GoString
  Header : Header
  Body : GoString
  deriving DecidableEq, Repr

/-- An `*http.Response`: the status code, and what `io.ReadAll(resp.Body)` returns
(the bytes read, and the read error if there is one). -/
structure Response where
  StatusCode : Int
  Body : Slice × Option GoError
  deriving DecidableEq, Repr

/-- What a call `client.Do(req)` leaves behind: the `(resp, err)` it returns, and the
header map of `req` as the call leaves it (the map is shared with whoever holds it). -/
structure DoResult where
  resp : Except GoError Response
  header : Header

/-- An `*http.Client`: `id` stands for the pointer, `Do` for the method `Do`. -/
structure HTTPClient where
  id : Nat
  Do : Request → DoResult

/-- Go `http.NewRequestWithContext` for the methods `GET` and `POST`: it fails on a nil
context and on a URL that does not parse; the new request has a fresh empty header. -/
def NewRequestWithContext (ctx : Context) (method url body : GoString) :
    Except GoError Request :=
  match ctx with
  | Context.nil => Except.error (GoError.errorString "net/http: nil Context")
  | Context.live =>
    if urlParses url then
      Except.ok { Method := method, URL := url, Header := some [], Body := body }
    else Except.error (GoError.urlError url)

/-- The result of a function of the package, with the requests it handed to a client
(the client's `id` first), in order. -/
structure Call (α : Type) where
  out : Outcome α
  sent : List (Nat × Request)

/-! ## `regexp` and `encoding/binary`, as far as `GetUserID` uses them -/

/-- The class `\d` of Go `regexp`: an ASCII digit. -/
def isDigit (c : UInt8) : Bool := 48 ≤ c && c ≤ 57

/-- A match of `"user_id":"(\d+)"` that starts at the head of `s`: the literal
`"user_id":"`, the longest run of digits (one at least), then `"`.  A shorter run of
digits is followed by a digit, so the longest run is the only one that can match.
The result is the match followed by its one group. -/
def matchHere (s : GoString) : Option (List GoString) :=
  let lit := str "\"user_id\":\""
  if lit.isPrefixOf s then
    let rest := s.drop lit.length
    let digits := rest.takeWhile isDigit
    if digits ≠ [] ∧ (rest.drop digits.length).head? = some 34 then
      some [lit ++ digits ++ [34], digits]
    else none
  else none

/-- Go `userIDRegex.FindSubmatch(b)` for `userIDRegex = "user_id":"(\d+)"`: the
leftmost match and its group, `nil` (`none`) when there is no match. -/
def FindSubmatch : GoString → Option (List GoString)
  | [] => none
  | c :: s =>
    match matchHere (c :: s) with
    | some m => some m
    | none => FindSubmatch s

/-- The types of the variable a `binary.Read` can be handed a pointer to, as far as
this development needs them: Go `int`, whose size depends on the platform, and the
fixed-size `int32` and `int64`. -/
inductive DataType where
  | int
  | int32
  | int64
  deriving DecidableEq, Repr

/-- Go `binary.dataSize` (through `intDataSize` and `sizeof`): the encoded size of a
fixed-size type, `-1` for a type `encoding/binary` does not accept.  `int` is no
fixed-size type. -/
def dataSize : DataType → Int
  | DataType.int => -1
  | DataType.int32 => 4
  | DataType.int64 => 8

/-- The big-endian unsigned value of a sequence of bytes. -/
def bigEndian (bs : GoString) : Nat := bs.foldl (fun acc b => acc * 256 + b.toNat) 0

/-- Go `binary.Read(bytes.NewReader(r), binary.BigEndian, &v)` for a variable `v` of
type `t` that is `v0` before the call: the value of `v` after the call and the error.
A type that is not fixed-size is rejected before anything is read; otherwise
`dataSize t` bytes are read (`io.EOF` on an empty reader, `io.ErrUnexpectedEOF` on a
short one) and decoded as a big-endian two's complement integer. -/
def binaryRead (r : GoString) (t : DataType) (v0 : Int) : Int × Option GoError :=
  let size := dataSize t
  if size < 0 then
    (v0, some (GoError.errorString
      (match t with
       | DataType.int => "binary.Read: invalid type *int"
       | DataType.int32 => "binary.Read: invalid type *int32"
       | DataType.int64 => "binary.Read: invalid type *int64")))
  else if r = [] then (v0, some (GoError.errorString "EOF"))
  else if (r.length : Int) < size then (v0, some (GoError.errorString "unexpected EOF"))
  else
    let u : Int := bigEndian (r.take size.toNat)
    let m : Int := 2 ^ (8 * size.toNat)
    (if u < m / 2 then u else u - m, none)

/-! ## The package `threads` -/

/-- Source: `baseURL`. -/
def baseURL : GoString := str "https://www.threads.net/@"

/-- Source: `apiURL`. -/
def apiURL : GoString := str "https://www.threads.net/api/graphql"

/-- Source: `getUserDocID`. -/
def getUserDocID : GoString := str "23996318473300828"

/-- Source: `getUserThreadsDocID`. -/
def getUserThreadsDocID : GoString := str "6232751443445612"

/-- Source: `getUserRepliesDocID`. -/
def getUserRepliesDocID : GoString := str "6307072669391286"

/-- Source: `getPostDocID`. -/
def getPostDocID : GoString := str "5587632691339264"

/-- Source: `getLikersDocID`. -/
def getLikersDocID : GoString := str "9360915773983802"

/-- The `User-Agent` literal of `NewClient` and of `getToken` (the same text). -/
def userAgent : GoString :=
  str "Mozilla/5.0 (Macintosh; Intel Mac OS X 10_15_7) AppleWebKit/537.36 (KHTML, like Gecko) Chrome/112.44.639.844 Safari/537.36"

/-- Source: `type Client struct`.  `client` is an `*http.Client` (`none` is nil). -/
structure Client where
  client : Option HTTPClient
  header : Header
  token : GoString

/-- Source: `type Option func(*Client)`; `none` is the nil function value. -/
abbrev ClientOption := Option (Client → Client)

/-- Source: `WithToken`. -/
def WithToken (token : GoString) : ClientOption :=
  some (fun c => { c with token := token })

/-- Source: `WithClient`. -/
def WithClient (client : Option HTTPClient) : ClientOption :=
  some (fun c => { c with client := client })

/-- Source: `WithHeader`. -/
def WithHeader (header : Header) : ClientOption :=
  some (fun c => { c with header := header })

/-- A run of `h.Add(key, value)` statements; `none` when one of them panics. -/
def addAll (h : Header) : List (GoString × GoString) → Option Header
  | [] => some h
  | (k, v) :: rest =>
    match Header.Add h k v with
    | none => none
    | some h1 => addAll h1 rest

/-- The loop `for _, opt := range opts { opt(&c) }`; `none` when an option is the nil
function (the call panics). -/
def applyOptions : List ClientOption → Client → Option Client
  | [], c => some c
  | none :: _, _ => none
  | some opt :: rest, c => applyOptions rest (opt c)

/-- Source: `(*Client).getToken`.  The request goes through `http.DefaultClient`
(line 98), whatever `c.client` is; the status code is not looked at. -/
def getToken (DefaultClient : HTTPClient) (_c : Client) (ctx : Context) : Call GoString :=
  match NewRequestWithContext ctx (str "GET") (baseURL ++ str "instagram") [] with
  | Except.error err => { out := Outcome.ret [] (some err), sent := [] }
  | Except.ok req0 =>
    match Header.Add req0.Header (str "User-Agent") userAgent with
    | none => { out := Outcome.panic "assignment to entry in nil map", sent := [] }
    | some h =>
      let req : Request := { req0 with Header := h }
      match (DefaultClient.Do req).resp with
      | Except.error err =>
        { out := Outcome.ret [] (some err), sent := [(DefaultClient.id, req)] }
      | Except.ok resp =>
        match resp.Body with
        | (_, some err) =>
          { out := Outcome.ret [] (some err), sent := [(DefaultClient.id, req)] }
        | (body, none) =>
          let pos := bytesIndex body.data (str "\"token\"")
          match body.slice (pos + 9) (pos + 31) with
          | none =>
            { out := Outcome.panic "slice bounds out of range",
              sent := [(DefaultClient.id, req)] }
          | some t => { out := Outcome.ret t none, sent := [(DefaultClient.id, req)] }

/-- The twelve `c.header.Add` statements of `NewClient`, in order. -/
def defaultHeaders : List (GoString × GoString) :=
  [ (str "Authority", str "www.threads.net"),
    (str "Accept", str "*/*"),
    (str "Accept-Language", str "en-US,en;q=0.9"),
    (str "Cache-Control", str "no-cache"),
    (str "Content-Type", str "application/x-www-form-urlencoded"),
    (str "Connetion", str "keep-alive"),
    (str "Origin", str "https://www.threads.net"),
    (str "Pragma", str "no-cache"),
    (str "Sec-Fetch-Site", str "same-origin"),
    (str "User-Agent", userAgent),
    (str "X-IG-ASBD-ID", str "129477"),
    (str "X-IG-App-ID", str "238260118697367") ]

/-- Source: `NewClient`.  The value is the `*Client` (`none` is nil). -/
def NewClient (DefaultClient : HTTPClient) (ctx : Context) (opts : List ClientOption) :
    Call (Option Client) :=
  match addAll (some []) defaultHeaders with
  | none => { out := Outcome.panic "assignment to entry in nil map", sent := [] }
  | some h0 =>
    match applyOptions opts { client := some DefaultClient, header := h0, token := [] } with
    | none => { out := Outcome.panic "nil pointer dereference", sent := [] }
    | some c1 =>
      let fetch : Call GoString :=
        if c1.token = [] then getToken DefaultClient c1 ctx
        else { out := Outcome.ret c1.token none, sent := [] }
      match fetch.out with
      | Outcome.panic msg => { out := Outcome.panic msg, sent := fetch.sent }
      | Outcome.ret _ (some err) => { out := Outcome.ret none (some err), sent := fetch.sent }
      | Outcome.ret token none =>
        let c2 : Client := { c1 with token := token }
        match Header.Add c2.header (str "X-FB-LSD") c2.token with
        | none =>
          { out := Outcome.panic "assignment to entry in nil map", sent := fetch.sent }
        | some h => { out := Outcome.ret (some { c2 with header := h }) none, sent := fetch.sent }

/-- The seven `req.Header.Add` statements of `GetUserID`, in order. -/
def userIDHeaders : List (GoString × GoString) :=
  [ (str "Accept", str "text/html,application/xhtml+xml,application/xml;q=0.9,image/avif,image/webp,image/apng,*/*;q=0.8,application/signed-exchange;v=b3;q=0.7"),
    (str "Referer", baseURL),
    (str "Sec-Fetch-Dest", str "document"),
    (str "Sec-Fetch-Mode", str "navigate"),
    (str "Sec-Fetch-Site", str "cross-site"),
    (str "Sec-Fetch-User", str "?1"),
    (str "Upgrade-Insecure-Requests", str "1") ]

/-- Source: `(*Client).GetUserID`.  The second component is the client as the call
leaves it: the request works on a clone of `c.header`, so `c` itself. -/
def GetUserID (c : Client) (ctx : Context) (name : GoString) : Call Int × Client :=
  match NewRequestWithContext ctx (str "GET") (baseURL ++ name) [] with
  | Except.error err => ({ out := Outcome.ret 0 (some err), sent := [] }, c)
  | Except.ok req0 =>
    match addAll (Header.Clone c.header) userIDHeaders with
    | none => ({ out := Outcome.panic "assignment to entry in nil map", sent := [] }, c)
    | some h1 =>
      let h2 := Header.Del (Header.Del (Header.Del h1 (str "X-ASBD-ID")) (str "X-FB-LSD"))
        (str "X-IG-App-ID")
      let req : Request := { req0 with Header := h2 }
      match c.client with
      | none => ({ out := Outcome.panic "nil pointer dereference", sent := [] }, c)
      | some cl =>
        match (cl.Do req).resp with
        | Except.error err => ({ out := Outcome.ret 0 (some err), sent := [(cl.id, req)] }, c)
        | Except.ok resp =>
          match resp.Body with
          | (_, some err) => ({ out := Outcome.ret 0 (some err), sent := [(cl.id, req)] }, c)
          | (body, none) =>
            match FindSubmatch body.data with
            | none =>
              ({ out := Outcome.panic "index out of range [1] with length 0",
                 sent := [(cl.id, req)] }, c)
            | some m =>
              match binaryRead (m.getD 1 []) DataType.int 0 with
              | (_, some err) =>
                ({ out := Outcome.ret 0 (some err), sent := [(cl.id, req)] }, c)
              | (userID, none) =>
                ({ out := Outcome.ret userID none, sent := [(cl.id, req)] }, c)

/-- Source: `sendRequest`.  The value is the `[]byte` (`none` is nil).  The second
component is the map `headers` as the call leaves it: `req.Header = headers` hands
the map itself to the request. -/
def sendRequest (ctx : Context) (c : Option HTTPClient) (headers : Header)
    (token docID : GoString) (vars : List (GoString × Int)) :
    Call (Option Slice) × Header :=
  let b := jsonMarshal vars
  let data : HeaderMap :=
    Values.Set (Values.Set (Values.Set [] (str "lsd") token) (str "doc_id") docID)
      (str "variables") b
  match NewRequestWithContext ctx (str "POST") apiURL (Values.Encode data) with
  | Except.error err => ({ out := Outcome.ret none (some err), sent := [] }, headers)
  | Except.ok req0 =>
    let req : Request := { req0 with Header := headers }
    match c with
    | none => ({ out := Outcome.panic "nil pointer dereference", sent := [] }, headers)
    | some cl =>
      let r := cl.Do req
      match r.resp with
      | Except.error err =>
        ({ out := Outcome.ret none (some err), sent := [(cl.id, req)] }, r.header)
      | Except.ok resp =>
        if resp.StatusCode ≥ 400 then
          ({ out := Outcome.ret none
               (some (GoError.errorString ("status code " ++ toString resp.StatusCode))),
             sent := [(cl.id, req)] }, r.header)
        else
          ({ out := Outcome.ret (some resp.Body.1) resp.Body.2, sent := [(cl.id, req)] },
           r.header)

/-- Source: `(*Client).GetUser`.  The request holds a clone of `c.header`, so the
client is left as it is. -/
def GetUser (c : Client) (ctx : Context) (userID : Int) : Call (Option Slice) × Client :=
  match Header.Add (Header.Clone c.header) (str "X-FB-Friendly-Name") (str "BarcelonaProfileRootQuery") with
  | none => ({ out := Outcome.panic "assignment to entry in nil map", sent := [] }, c)
  | some h =>
    ((sendRequest ctx c.client h c.token getUserDocID [(str "userID", userID)]).1, c)

/-- Source: `(*Client).GetUserThreads`.  The request holds a clone of `c.header`, so the
client is left as it is. -/
def GetUserThreads (c : Client) (ctx : Context) (userID : Int) : Call (Option Slice) × Client :=
  match Header.Add (Header.Clone c.header) (str "X-FB-Friendly-Name") (str "BarcelonaProfileThreadsTabQuery") with
  | none => ({ out := Outcome.panic "assignment to entry in nil map", sent := [] }, c)
  | some h =>
    ((sendRequest ctx c.client h c.token getUserThreadsDocID [(str "userID", userID)]).1, c)

/-- Source: `(*Client).GetUserReplies`.  The request holds a clone of `c.header`, so the
client is left as it is. -/
def GetUserReplies (c : Client) (ctx : Context) (userID : Int) : Call (Option Slice) × Client :=
  match Header.Add (Header.Clone c.header) (str "X-FB-Friendly-Name") (str "BarcelonaProfileRepliesTabQuery") with
  | none => ({ out := Outcome.panic "assignment to entry in nil map", sent := [] }, c)
  | some h =>
    ((sendRequest ctx c.client h c.token getUserRepliesDocID [(str "userID", userID)]).1, c)

/-- Source: `(*Client).GetPost`.  The request holds a clone of `c.header`, so the
client is left as it is. -/
def GetPost (c : Client) (ctx : Context) (postID : Int) : Call (Option Slice) × Client :=
  match Header.Add (Header.Clone c.header) (str "X-FB-Friendly-Name") (str "BarcelonaPostPageQuery") with
  | none => ({ out := Outcome.panic "assignment to entry in nil map", sent := [] }, c)
  | some h =>
    ((sendRequest ctx c.client h c.token getPostDocID [(str "postID", postID)]).1, c)

/-- Source: `(*Client).GetLikers`.  `c.header` itself, not a clone, goes to
`sendRequest`, so the client's header map is what the request leaves of it. -/
def GetLikers (c : Client) (ctx : Context) (postID : Int) : Call (Option Slice) × Client :=
  let r := sendRequest ctx c.client c.header c.token getLikersDocID [(str "mediaID", postID)]
  (r.1, { c with header := r.2 })

/-- The five query methods. -/
inductive Query where
  | GetUser
  | GetUserThreads
  | GetUserReplies
  | GetPost
  | GetLikers
  deriving DecidableEq, Repr

/-- The call of a query method on a client. -/
def Query.run : Query → Client → Context → Int → Call (Option Slice) × Client
  | Query.GetUser => Threads.GetUser
  | Query.GetUserThreads => Threads.GetUserThreads
  | Query.GetUserReplies => Threads.GetUserReplies
  | Query.GetPost => Threads.GetPost
  | Query.GetLikers => Threads.GetLikers

/-- The document ID of a query method. -/
def Query.docID : Query → GoString
  | Query.GetUser => getUserDocID
  | Query.GetUserThreads => getUserThreadsDocID
  | Query.GetUserReplies => getUserRepliesDocID
  | Query.GetPost => getPostDocID
  | Query.GetLikers => getLikersDocID

/-- The key of the one variable of a query method. -/
def Query.key : Query → GoString
  | Query.GetUser => str "userID"
  | Query.GetUserThreads => str "userID"
  | Query.GetUserReplies => str "userID"
  | Query.GetPost => str "postID"
  | Query.GetLikers => str "mediaID"

/-! ## Clients to run the code against -/

/-- An `*http.Client` that leaves the request alone: `rt` is its transport. -/
def plainClient (id : Nat) (rt : Request → Except GoError Response) : HTTPClient :=
  { id := id, Do := fun req => { resp := rt req, header := req.Header } }

/-- Go `(*http.Request).AddCookie` for a cookie whose `name=value` text is `s`: the
`Cookie` header is set to `s`, or to the old value followed by `; ` and `s`. -/
def AddCookie (h : Header) (s : GoString) : Header :=
  let old := Header.Get h (str "Cookie")
  match Header.Set h (str "Cookie") (if old ≠ [] then old ++ str "; " ++ s else s) with
  | none => h
  | some h1 => h1

/-- An `*http.Client` with a cookie jar that holds one cookie for the request's URL:
`(*http.Client).send` calls `req.AddCookie` on the caller's request before the round
trip. -/
def jarClient (id : Nat) (cookie : GoString) (rt : Request → Except GoError Response) :
    HTTPClient :=
  { id := id,
    Do := fun req =>
      let h := AddCookie req.Header cookie
      { resp := rt { req with Header := h }, header := h } }

/-! ## Requests, header sets and fixtures to state the theorems with -/

/-- The header set of a client made by `NewClient` without a `WithHeader` option, for
the token `t`: the twelve default entries under their canonical keys, and `X-Fb-Lsd`. -/
def expectedHeader (t : GoString) : HeaderMap :=
  [ (str "Authority", [str "www.threads.net"]),
    (str "Accept", [str "*/*"]),
    (str "Accept-Language", [str "en-US,en;q=0.9"]),
    (str "Cache-Control", [str "no-cache"]),
    (str "Content-Type", [str "application/x-www-form-urlencoded"]),
    (str "Connetion", [str "keep-alive"]),
    (str "Origin", [str "https://www.threads.net"]),
    (str "Pragma", [str "no-cache"]),
    (str "Sec-Fetch-Site", [str "same-origin"]),
    (str "User-Agent", [str "Mozilla/5.0 (Macintosh; Intel Mac OS X 10_15_7) AppleWebKit/537.36 (KHTML, like Gecko) Chrome/112.44.639.844 Safari/537.36"]),
    (str "X-Ig-Asbd-Id", [str "129477"]),
    (str "X-Ig-App-Id", [str "238260118697367"]),
    (str "X-Fb-Lsd", [t]) ]

/-- The request `sendRequest` builds when the context is not nil. -/
def postRequest (headers : Header) (token docID : GoString) (vars : List (GoString × Int)) :
    Request :=
  { Method := str "POST", URL := apiURL, Header := headers,
    Body := Values.Encode
      (Values.Set (Values.Set (Values.Set [] (str "lsd") token) (str "doc_id") docID)
        (str "variables") (jsonMarshal vars)) }

/-- The request `getToken` builds when the context is not nil. -/
def tokenRequest : Request :=
  { Method := str "GET", URL := str "https://www.threads.net/@instagram",
    Header := some [(str "User-Agent", [userAgent])], Body := [] }

/-- A byte that is none of `&`, `=`, `;`. -/
def noSeparator (c : UInt8) : Bool := c != 38 && c != 61 && c != 59

/-- A `key=value` piece of an encoded form: escaped key, `=`, escaped value. -/
def formPiece (k v : GoString) : GoString := QueryEscape k ++ 61 :: QueryEscape v

/-- What `io.ReadAll` returns for a body of fewer than 512 bytes: the bytes, in the
backing array of `make([]byte, 0, 512)`. -/
def readAll (body : GoString) : Slice :=
  { data := body, spare := List.replicate (512 - body.length) 0 }

/-- A transport that answers every request with the status `sc` and the body `body`. -/
def respond (sc : Int) (body : GoString) : Request → Except GoError Response :=
  fun _ => Except.ok { StatusCode := sc, Body := (readAll body, none) }

/-- A transport that fails on every request. -/
def noNetwork : Request → Except GoError Response :=
  fun _ => Except.error (GoError.external "dial tcp: network is unreachable")

/-- Go `(*http.Request).FormValue(key)` on a request without URL query: the first value
of `key` in the body, which is parsed only under the form content type. -/
def FormValue (req : Request) (key : GoString) : GoString :=
  if Header.Get req.Header (str "Content-Type") = str "application/x-www-form-urlencoded"
  then ((ParseQuery req.Body).1.lookup key).headD []
  else []

/-- Source: `(*fake).RoundTrip` of `threads_test.go`, with the embedded fixtures as
parameters.  A response that was written to has status 200 (the later
`WriteHeader(404)` is then ignored); one that was not is a 404 with an empty body. -/
def fakeRoundTrip (tokenResponse userIDResponse : GoString) (fixture : Query → GoString)
    (req : Request) : Except GoError Response :=
  let ok (body : GoString) : Except GoError Response :=
    Except.ok { StatusCode := 200, Body := (readAll body, none) }
  let notFound : Except GoError Response :=
    Except.ok { StatusCode := 404, Body := (readAll [], none) }
  if req.URL = baseURL ++ str "/@instagram" then
    if Header.Get req.Header (str "Referer") = baseURL then ok userIDResponse
    else ok tokenResponse
  else if req.URL = apiURL then
    let docID := FormValue req (str "doc_id")
    if docID = getUserDocID then ok (fixture Query.GetUser)
    else if docID = getUserThreadsDocID then ok (fixture Query.GetUserThreads)
    else if docID = getUserRepliesDocID then ok (fixture Query.GetUserReplies)
    else if docID = getPostDocID then ok (fixture Query.GetPost)
    else if docID = getLikersDocID then ok (fixture Query.GetLikers)
    else notFound
  else notFound

/-- The token of the tests. -/
def testToken : GoString := str "OqhxMWDlJViVPLZiN5p9Un"

/-- A page with the token of the tests (the fixture `testdata/token.html` is not part
of the sources at hand). -/
def tokenPage : GoString :=
  str "<script>\x7b\"config\":\x7b\"token\":\"OqhxMWDlJViVPLZiN5p9Un\"\x7d,\"x\":1\x7d</script>"

/-- A page with another token. -/
def otherTokenPage : GoString :=
  str "<script>\x7b\"config\":\x7b\"token\":\"AAAAAAAAAAAAAAAAAAAAAA\"\x7d,\"x\":1\x7d</script>"

/-- A page with the user ID of the tests (the fixture `testdata/user_id.html` is not
part of the sources at hand). -/
def userIDPage : GoString := str "<script>\x7b\"user_id\":\"25025320\"\x7d</script>"

/-- Stand-ins for the JSON fixtures of the tests. -/
def jsonFixture : Query → GoString
  | Query.GetUser => str "\x7b\"data\":\x7b\"userData\":\x7b\x7d\x7d\x7d"
  | Query.GetUserThreads => str "\x7b\"data\":\x7b\"mediaData\":\x7b\"threads\":[]\x7d\x7d\x7d"
  | Query.GetUserReplies => str "\x7b\"data\":\x7b\"mediaData\":\x7b\"replies\":[]\x7d\x7d\x7d"
  | Query.GetPost => str "\x7b\"data\":\x7b\"data\":\x7b\"containing_thread\":\x7b\x7d\x7d\x7d\x7d"
  | Query.GetLikers => str "\x7b\"data\":\x7b\"likers\":\x7b\"users\":[]\x7d\x7d\x7d"

/-- The client `&http.Client{Transport: &fake{}}` of the tests. -/
def fakeClient : HTTPClient := plainClient 1 (fakeRoundTrip tokenPage userIDPage jsonFixture)

/-- The client every test but `TestNewClient` builds:
`NewClient(ctx, WithClient(fake), WithToken("OqhxMWDlJViVPLZiN5p9Un"))`. -/
def testClient : Client :=
  { client := some fakeClient, header := some (expectedHeader testToken), token := testToken }

/-- A client with a cookie jar that holds the cookie `sid=1`, on the fake transport. -/
def cookieClient : Client :=
  { client := some (jarClient 2 (str "sid=1") (fakeRoundTrip tokenPage userIDPage jsonFixture)),
    header := some (expectedHeader testToken), token := testToken }

/-- The request `GetUser` sends for `testClient` and the user ID of the tests. -/
def testUserRequest : Request :=
  postRequest
    (some (expectedHeader testToken ++
      [(str "X-Fb-Friendly-Name", [str "BarcelonaProfileRootQuery"])]))
    testToken getUserDocID [(str "userID", 25025320)]

/-- The request `GetPost` sends for `testClient` and the post ID of the tests. -/
def testPostRequest : Request :=
  postRequest
    (some (expectedHeader testToken ++
      [(str "X-Fb-Friendly-Name", [str "BarcelonaPostPageQuery"])]))
    testToken getPostDocID [(str "postID", 3152079361880880077)]

/-- A client whose transport answers 429 to everything. -/
def busyClient : Client :=
  { client := some (plainClient 3 (respond 429 (str "slow down"))),
    header := some (expectedHeader testToken), token := testToken }

/-- An `http.DefaultClient` behind which the page with the token of the tests is. -/
def pageClient : HTTPClient := plainClient 0 (respond 200 tokenPage)

/-- A page of 512 bytes that ends in `"token"` and fills its backing array: the last
`Read` delivered it together with `io.EOF`. -/
def fullPage : Slice :=
  { data := List.replicate 505 32 ++ str "\"token\"", spare := [] }

/-- The client of the tests on a transport that answers every request with the page
`userIDPage`. -/
def userIDClient : Client :=
  { client := some (plainClient 4 (respond 200 userIDPage)),
    header := some (expectedHeader testToken), token := testToken }

/-- The header set of `cookieClient` after one call of `GetLikers`: the jar's cookie is
in the client's own map. -/
def headerAfterLikers : HeaderMap :=
  expectedHeader testToken ++ [(str "Cookie", [str "sid=1"])]

/-! ## Lemmas on the model -/

theorem urlParses_apiURL : urlParses apiURL = true := by decide

theorem sendRequest_sent (cl : HTTPClient) (headers : Header)
    (token docID : GoString) (vars : List (GoString × Int)) :
    (sendRequest Context.live (some cl) headers token docID vars).1.sent =
      [(cl.id, postRequest headers token docID vars)] := by
  simp only [sendRequest, NewRequestWithContext, urlParses_apiURL, if_true, postRequest]
  cases h : (cl.Do _).resp with
  | error e => rfl
  | ok resp => by_cases hs : resp.StatusCode ≥ 400 <;> simp [hs]

theorem sendRequest_out (cl : HTTPClient) (headers : Header)
    (token docID : GoString) (vars : List (GoString × Int)) :
    (sendRequest Context.live (some cl) headers token docID vars).1.out =
      match (cl.Do (postRequest headers token docID vars)).resp with
      | Except.error err => Outcome.ret none (some err)
      | Except.ok resp =>
        if resp.StatusCode ≥ 400 then
          Outcome.ret none
            (some (GoError.errorString ("status code " ++ toString resp.StatusCode)))
        else Outcome.ret (some resp.Body.1) resp.Body.2 := by
  simp only [sendRequest, NewRequestWithContext, urlParses_apiURL, if_true, postRequest]
  cases h : (cl.Do _).resp with
  | error e => rfl
  | ok resp => by_cases hs : resp.StatusCode ≥ 400 <;> simp [hs]

/-- With a context, a transport and (but for `GetLikers`) a header map that are not
nil, a query method is `sendRequest` on some header map with the client's transport and
token, the method's document ID and its one variable. -/
theorem run_live (q : Query) (c : Client) (cl : HTTPClient) (ctx : Context) (n : Int)
    (hctx : ctx ≠ Context.nil) (hcl : c.client = some cl)
    (hh : q = Query.GetLikers ∨ c.header ≠ none) :
    ∃ h, (q.run c ctx n).1 =
      (sendRequest Context.live (some cl) h c.token q.docID [(q.key, n)]).1 := by
  cases ctx with
  | nil => exact absurd rfl hctx
  | live =>
    cases q
    case GetLikers =>
      refine ⟨c.header, ?_⟩
      simp only [Query.run, GetLikers, Query.docID, Query.key, hcl]
    all_goals
      have hne : c.header ≠ none := by
        rcases hh with h0 | h0
        · cases h0
        · exact h0
      obtain ⟨m, hm⟩ := Option.ne_none_iff_exists'.mp hne
      simp only [Query.run, Query.docID, Query.key]
      first
      | (simp only [GetUser, hm, Header.Clone, Header.Add, hcl])
      | (simp only [GetUserThreads, hm, Header.Clone, Header.Add, hcl])
      | (simp only [GetUserReplies, hm, Header.Clone, Header.Add, hcl])
      | (simp only [GetPost, hm, Header.Clone, Header.Add, hcl])
      exact ⟨_, rfl⟩

/-- Under the same conditions a query method sends exactly one request, the POST of
`sendRequest`, and returns what `sendRequest` makes of the answer. -/
theorem run_out (q : Query) (c : Client) (cl : HTTPClient) (ctx : Context) (n : Int)
    (hctx : ctx ≠ Context.nil) (hcl : c.client = some cl)
    (hh : q = Query.GetLikers ∨ c.header ≠ none) :
    ∃ h, (q.run c ctx n).1.sent = [(cl.id, postRequest h c.token q.docID [(q.key, n)])] ∧
      (q.run c ctx n).1.out =
        match (cl.Do (postRequest h c.token q.docID [(q.key, n)])).resp with
        | Except.error err => Outcome.ret none (some err)
        | Except.ok resp =>
          if resp.StatusCode ≥ 400 then
            Outcome.ret none
              (some (GoError.errorString ("status code " ++ toString resp.StatusCode)))
          else Outcome.ret (some resp.Body.1) resp.Body.2 := by
  obtain ⟨h, hrun⟩ := run_live q c cl ctx n hctx hcl hh
  refine ⟨h, ?_, ?_⟩
  · rw [hrun]; exact sendRequest_sent cl h c.token q.docID [(q.key, n)]
  · rw [hrun]; exact sendRequest_out cl h c.token q.docID [(q.key, n)]

theorem getToken_nil (dc : HTTPClient) (c : Client) :
    (getToken dc c Context.nil).sent = [] ∧
    (getToken dc c Context.nil).out =
      Outcome.ret [] (some (GoError.errorString "net/http: nil Context")) := by
  simp [getToken, NewRequestWithContext]

theorem getToken_live (dc : HTTPClient) (c : Client) :
    getToken dc c Context.live =
      match (dc.Do tokenRequest).resp with
      | Except.error err => { out := Outcome.ret [] (some err), sent := [(dc.id, tokenRequest)] }
      | Except.ok resp =>
        match resp.Body with
        | (_, some err) =>
          { out := Outcome.ret [] (some err), sent := [(dc.id, tokenRequest)] }
        | (body, none) =>
          match body.slice (bytesIndex body.data (str "\"token\"") + 9)
              (bytesIndex body.data (str "\"token\"") + 31) with
          | none =>
            { out := Outcome.panic "slice bounds out of range",
              sent := [(dc.id, tokenRequest)] }
          | some t => { out := Outcome.ret t none, sent := [(dc.id, tokenRequest)] } := by
  have hurl : urlParses (baseURL ++ str "instagram") = true := by decide
  have hadd : Header.Add (some []) (str "User-Agent") userAgent =
      some (some [(str "User-Agent", [userAgent])]) := by decide
  have hreq : Request.mk (str "GET") (baseURL ++ str "instagram")
      (some [(str "User-Agent", [userAgent])]) [] = tokenRequest := by decide
  simp only [getToken, NewRequestWithContext, hurl, if_true, hadd, hreq]

/-- A slice expression that does not panic denotes `hi - lo` bytes. -/
theorem Slice.slice_length (s : Slice) (lo hi : Int) (t : GoString)
    (h : s.slice lo hi = some t) : (t.length : Int) = hi - lo := by
  unfold Slice.slice at h
  split at h
  · rename_i hb
    obtain ⟨h0, h1, h2⟩ := hb
    cases h
    simp only [Slice.cap] at h2
    rw [List.length_take, List.length_drop, List.length_append]
    omega
  · cases h

/-- A slice expression within the length of the slice denotes the bytes of `data`. -/
theorem Slice.slice_data (s : Slice) (lo hi : Nat) (h1 : lo ≤ hi)
    (h2 : hi ≤ s.data.length) :
    s.slice lo hi = some ((s.data.drop lo).take (hi - lo)) := by
  unfold Slice.slice
  have hb : (0 : Int) ≤ lo ∧ (lo : Int) ≤ hi ∧ (hi : Int) ≤ s.cap := by
    simp only [Slice.cap]; omega
  rw [if_pos hb]
  simp only [Int.toNat_ofNat]
  rw [List.drop_append_of_le_length (by omega), List.take_append_of_le_length]
  rw [List.length_drop]; omega

theorem getToken_sent_live (dc : HTTPClient) (c : Client) :
    (getToken dc c Context.live).sent = [(dc.id, tokenRequest)] := by
  rw [getToken_live]
  split
  · rfl
  · split
    · rfl
    · split <;> rfl

theorem HeaderMap.lookup_assign (m : HeaderMap) (k : GoString) (vs : List GoString) :
    (HeaderMap.assign m k vs).lookup k = vs := by
  induction m with
  | nil => simp [HeaderMap.assign, HeaderMap.lookup]
  | cons e rest ih =>
    obtain ⟨k1, v1⟩ := e
    by_cases h : k1 = k
    · simp [HeaderMap.assign, HeaderMap.lookup, h]
    · simp [HeaderMap.assign, HeaderMap.lookup, h, ih]

/-- After `h.Add(key, value)` the last value of `key` is `value`. -/
theorem Header.Values_Add (h h1 : Header) (key value : GoString)
    (hadd : Header.Add h key value = some h1) :
    (Header.Values h1 key).getLast? = some value := by
  cases h with
  | none => cases hadd
  | some m =>
    simp only [Header.Add, Option.some.injEq] at hadd
    subst hadd
    simp [Header.Values, HeaderMap.lookup_assign]

/-- A token `getToken` returns with a nil error has 22 bytes. -/
theorem getToken_length (dc : HTTPClient) (c : Client) (ctx : Context) (t : GoString)
    (h : (getToken dc c ctx).out = Outcome.ret t none) : t.length = 22 := by
  cases ctx with
  | nil => rw [(getToken_nil dc c).2] at h; cases h
  | live =>
    rw [getToken_live] at h
    split at h
    · cases h
    · split at h
      · cases h
      · split at h
        · cases h
        · rename_i t1 hs
          cases h
          have := Slice.slice_length _ _ _ _ hs
          omega

/-! ### `url.QueryEscape` and `url.ParseQuery` -/

theorem all_bytes (P : UInt8 → Prop) (h : ∀ n : Fin 256, P (UInt8.mk (BitVec.ofFin n))) :
    ∀ c : UInt8, P c := by
  intro c
  cases c with
  | mk v =>
    cases v with
    | ofFin f => exact h f

set_option maxRecDepth 100000 in
theorem escaped_byte : ∀ c : UInt8,
    ishex (upperhex (c >>> 4)) = true ∧ ishex (upperhex (c &&& 15)) = true ∧
    (unhex (upperhex (c >>> 4)) <<< 4) ||| unhex (upperhex (c &&& 15)) = c := by
  apply all_bytes
  decide

set_option maxRecDepth 100000 in
theorem plain_byte : ∀ c : UInt8, shouldEscape c = false → c ≠ 37 ∧ c ≠ 43 := by
  apply all_bytes
  decide

set_option maxRecDepth 100000 in
theorem noSeparator_byte : ∀ c : UInt8,
    noSeparator (upperhex (c >>> 4)) = true ∧ noSeparator (upperhex (c &&& 15)) = true ∧
    (shouldEscape c = false → noSeparator c = true) := by
  apply all_bytes
  decide

theorem QueryUnescape_plus (r : GoString) :
    QueryUnescape (43 :: r) = (QueryUnescape r).map (fun t => 32 :: t) := by
  cases r with
  | nil => simp [QueryUnescape]
  | cons a r2 =>
    cases r2 with
    | nil => simp [QueryUnescape]
    | cons b r3 => simp [QueryUnescape]

theorem QueryUnescape_plain (c : UInt8) (r : GoString) (h1 : c ≠ 37) (h2 : c ≠ 43) :
    QueryUnescape (c :: r) = (QueryUnescape r).map (fun t => c :: t) := by
  cases r with
  | nil => simp [QueryUnescape, h1, h2]
  | cons a r2 =>
    cases r2 with
    | nil => simp [QueryUnescape, h1, h2]
    | cons b r3 => simp [QueryUnescape, h1, h2]

theorem QueryUnescape_percent (a b : UInt8) (r : GoString)
    (ha : ishex a = true) (hb : ishex b = true) :
    QueryUnescape (37 :: a :: b :: r) =
      (QueryUnescape r).map (fun t => ((unhex a <<< 4) ||| unhex b) :: t) := by
  simp [QueryUnescape, ha, hb]

/-- `QueryUnescape` undoes `QueryEscape`, on every string of bytes. -/
theorem QueryUnescape_QueryEscape (s : GoString) :
    QueryUnescape (QueryEscape s) = some s := by
  induction s with
  | nil => rfl
  | cons c rest ih =>
    by_cases h32 : c = 32
    · subst h32
      have e : QueryEscape (32 :: rest) = 43 :: QueryEscape rest := by
        simp [QueryEscape]
      rw [e, QueryUnescape_plus, ih]; rfl
    · by_cases hesc : shouldEscape c = true
      · have e : QueryEscape (c :: rest) =
            37 :: upperhex (c >>> 4) :: upperhex (c &&& 15) :: QueryEscape rest := by
          simp [QueryEscape, h32, hesc]
        obtain ⟨h1, h2, h3⟩ := escaped_byte c
        rw [e, QueryUnescape_percent _ _ _ h1 h2, ih, h3]; rfl
      · have hesc2 : shouldEscape c = false := by simpa using hesc
        have e : QueryEscape (c :: rest) = c :: QueryEscape rest := by
          simp [QueryEscape, h32, hesc2]
        obtain ⟨h1, h2⟩ := plain_byte c hesc2
        rw [e, QueryUnescape_plain _ _ h1 h2, ih]; rfl

/-- An escaped string has none of the separators `&`, `=`, `;`. -/
theorem QueryEscape_noSeparator (s : GoString) :
    (QueryEscape s).all noSeparator = true := by
  induction s with
  | nil => rfl
  | cons c rest ih =>
    obtain ⟨h1, h2, h3⟩ := noSeparator_byte c
    by_cases h32 : c = 32
    · subst h32
      have e : QueryEscape (32 :: rest) = 43 :: QueryEscape rest := by
        simp [QueryEscape]
      rw [e, List.all_cons, ih]; rfl
    · by_cases hesc : shouldEscape c = true
      · have e : QueryEscape (c :: rest) =
            37 :: upperhex (c >>> 4) :: upperhex (c &&& 15) :: QueryEscape rest := by
          simp [QueryEscape, h32, hesc]
        rw [e, List.all_cons, List.all_cons, List.all_cons, ih, h1, h2]; rfl
      · have hesc2 : shouldEscape c = false := by simpa using hesc
        have e : QueryEscape (c :: rest) = c :: QueryEscape rest := by
          simp [QueryEscape, h32, hesc2]
        rw [e, List.all_cons, ih, h3 hesc2]; rfl

theorem splitOn_append (sep : UInt8) (a b : GoString)
    (ha : a.all (fun c => c != sep) = true) :
    splitOn sep (a ++ sep :: b) = a :: splitOn sep b := by
  induction a with
  | nil => simp [splitOn]
  | cons c rest ih =>
    rw [List.all_cons, Bool.and_eq_true] at ha
    have hc : c ≠ sep := by simpa using ha.1
    have h := ih ha.2
    rw [List.cons_append, splitOn, if_neg hc, h]

theorem splitOn_single (sep : UInt8) (a : GoString)
    (ha : a.all (fun c => c != sep) = true) : splitOn sep a = [a] := by
  induction a with
  | nil => rfl
  | cons c rest ih =>
    rw [List.all_cons, Bool.and_eq_true] at ha
    have hc : c ≠ sep := by simpa using ha.1
    simp only [splitOn, hc, if_false, ih ha.2]

theorem cut_append (sep : UInt8) (a b : GoString)
    (ha : a.all (fun c => c != sep) = true) : cut sep (a ++ sep :: b) = (a, b) := by
  induction a with
  | nil => simp [cut]
  | cons c rest ih =>
    rw [List.all_cons, Bool.and_eq_true] at ha
    have hc : c ≠ sep := by simpa using ha.1
    have := ih ha.2
    simp only [cut, Prod.mk.injEq] at this ⊢
    simp at this
    simp [hc, this]

theorem noSeparator_all (s : GoString) (sep : UInt8)
    (hsep : sep = 38 ∨ sep = 61 ∨ sep = 59) (h : s.all noSeparator = true) :
    s.all (fun c => c != sep) = true := by
  rw [List.all_eq_true] at h ⊢
  intro x hx
  have hx2 := h x hx
  simp only [noSeparator, Bool.and_eq_true, bne_iff_ne, ne_eq] at hx2
  rcases hsep with h1 | h1 | h1 <;> subst h1 <;> simp [hx2]

theorem formPiece_noSeparator (k v : GoString) (sep : UInt8) (hsep : sep = 38 ∨ sep = 59) :
    (formPiece k v).all (fun c => c != sep) = true := by
  have hk := noSeparator_all _ sep (by rcases hsep with h | h <;> simp [h])
    (QueryEscape_noSeparator k)
  have hv := noSeparator_all _ sep (by rcases hsep with h | h <;> simp [h])
    (QueryEscape_noSeparator v)
  rw [formPiece, List.all_append, List.all_cons, hk, hv]
  rcases hsep with h | h <;> subst h <;> decide

theorem parsePiece_formPiece (acc : HeaderMap × Option GoError) (k v : GoString) :
    parsePiece acc (formPiece k v) = (acc.1.assign k (acc.1.lookup k ++ [v]), acc.2) := by
  have h59 : (formPiece k v).contains 59 = false := by
    have h := formPiece_noSeparator k v 59 (Or.inr rfl)
    rw [List.all_eq_true] at h
    rw [Bool.eq_false_iff]
    intro hc
    rw [List.contains_iff_exists_mem_beq] at hc
    obtain ⟨x, hx, hx2⟩ := hc
    have := h x hx
    simp at hx2 this
    exact this hx2.symm
  have hne : formPiece k v ≠ [] := by simp [formPiece]
  have hcut : cut 61 (formPiece k v) = (QueryEscape k, QueryEscape v) :=
    cut_append 61 _ _ (noSeparator_all _ 61 (by simp) (QueryEscape_noSeparator k))
  simp only [parsePiece, h59, hne, hcut, QueryUnescape_QueryEscape, if_false]
  simp

/-- The body `sendRequest` encodes, written out. -/
theorem Encode_form (t d j : GoString) :
    Values.Encode (Values.Set (Values.Set (Values.Set [] (str "lsd") t) (str "doc_id") d)
      (str "variables") j) =
    formPiece (str "doc_id") d ++ 38 :: (formPiece (str "lsd") t ++
      38 :: formPiece (str "variables") j) := by
  have h1 : str "lsd" ≠ str "doc_id" := by decide
  have h2 : str "lsd" ≠ str "variables" := by decide
  have h3 : str "doc_id" ≠ str "variables" := by decide
  have s1 : strLE (str "doc_id") (str "lsd") = true := by decide
  have s2 : strLE (str "lsd") (str "variables") = true := by decide
  have s3 : strLE (str "doc_id") (str "variables") = true := by decide
  have s4 : strLE (str "lsd") (str "doc_id") = false := by decide
  have hamp : str "&" = [38] := by decide
  have heq : str "=" = [61] := by decide
  simp [Values.Encode, Values.Set, HeaderMap.assign, h1, h2, h3, sortByKey, insertByKey,
    s1, s2, s3, s4, joinWith, formPiece, hamp, heq]

/-- Parsing the body `sendRequest` encodes gives back the three fields. -/
theorem ParseQuery_form (t d j : GoString) :
    ParseQuery (Values.Encode
      (Values.Set (Values.Set (Values.Set [] (str "lsd") t) (str "doc_id") d)
        (str "variables") j)) =
    ([(str "doc_id", [d]), (str "lsd", [t]), (str "variables", [j])], none) := by
  have h1 : str "doc_id" ≠ str "lsd" := by decide
  have h2 : str "lsd" ≠ str "variables" := by decide
  have h3 : str "doc_id" ≠ str "variables" := by decide
  rw [Encode_form, ParseQuery,
    splitOn_append 38 _ _ (formPiece_noSeparator _ _ 38 (Or.inl rfl)),
    splitOn_append 38 _ _ (formPiece_noSeparator _ _ 38 (Or.inl rfl)),
    splitOn_single 38 _ (formPiece_noSeparator _ _ 38 (Or.inl rfl))]
  simp only [List.foldl, parsePiece_formPiece]
  simp [HeaderMap.assign, HeaderMap.lookup, h1, h2, h3]

theorem jsonMarshal_single (key : GoString) (n : Int) :
    jsonMarshal [(key, n)] = str "\x7b\"" ++ key ++ str "\":" ++ itoa n ++ str "\x7d" := by
  have h : str "\x7b\"" = str "\x7b" ++ str "\"" := by decide
  simp [jsonMarshal, sortByKey, insertByKey, joinWith, h]

theorem QueryEscape_docID (q : Query) : QueryEscape q.docID = q.docID := by
  cases q <;> decide

theorem addAll_defaultHeaders :
    addAll (some []) defaultHeaders = some (some ((expectedHeader []).dropLast)) := by
  decide

theorem binaryRead_int (r : GoString) (v0 : Int) :
    binaryRead r DataType.int v0 =
      (v0, some (GoError.errorString "binary.Read: invalid type *int")) := by
  simp [binaryRead, dataSize]

/-! ## The claims -/

/-- C1: each of the five query methods, for every integer argument, on a client with a
context, a transport and (but for `GetLikers`, which adds no header) a header map that
are not nil, sends exactly one request; and for every answer of the transport to that
request with a status code below 400 and a body that reads as the bytes `b`, the
method returns exactly `b` and a nil error. -/
theorem query_returns_body (q : Query) (c : Client) (cl : HTTPClient) (ctx : Context)
    (n : Int) (hctx : ctx ≠ Context.nil) (hcl : c.client = some cl)
    (hh : q = Query.GetLikers ∨ c.header ≠ none) :
    ∃ req, (q.run c ctx n).1.sent = [(cl.id, req)] ∧
      ∀ (s : Int) (b : Slice),
        (cl.Do req).resp = Except.ok { StatusCode := s, Body := (b, none) } → s < 400 →
        (q.run c ctx n).1.out = Outcome.ret (some b) none := by
  obtain ⟨h, hsent, hout⟩ := run_out q c cl ctx n hctx hcl hh
  refine ⟨_, hsent, ?_⟩
  intro s b hresp hs
  rw [hout, hresp]
  have : ¬ s ≥ 400 := by omega
  simp [this]

/-- C5: each of the five query methods, on a client with a context, a transport and (but
for `GetLikers`) a header map that are not nil, sends exactly one request; and when
the transport answers it with status code `s` and a readable body `b`, the method
returns a non-nil error exactly when `s >= 400`; then the body is nil and the error is
`status code ` followed by the decimal `s`; for every other status code the method
returns `b` and a nil error. -/
theorem query_fails_iff_status (q : Query) (c : Client) (cl : HTTPClient) (ctx : Context)
    (n : Int) (hctx : ctx ≠ Context.nil) (hcl : c.client = some cl)
    (hh : q = Query.GetLikers ∨ c.header ≠ none) :
    ∃ req, (q.run c ctx n).1.sent = [(cl.id, req)] ∧
      ∀ (s : Int) (b : Slice),
        (cl.Do req).resp = Except.ok { StatusCode := s, Body := (b, none) } →
        ((∃ v e, (q.run c ctx n).1.out = Outcome.ret v (some e)) ↔ 400 ≤ s) ∧
        (400 ≤ s → (q.run c ctx n).1.out =
          Outcome.ret none (some (GoError.errorString ("status code " ++ toString s)))) ∧
        (s < 400 → (q.run c ctx n).1.out = Outcome.ret (some b) none) := by
  obtain ⟨h, hsent, hout⟩ := run_out q c cl ctx n hctx hcl hh
  refine ⟨_, hsent, ?_⟩
  intro s b hresp
  rw [hout, hresp]
  by_cases h4 : s ≥ 400
  · simp [h4]
  · have h2 : s < 400 := by omega
    simp [h4, h2]

/-- C6: for every non-empty token `t`, `NewClient` with the one option `WithToken(t)`
sends no request and returns, with a nil error, a client whose token is `t`, whose
transport is the default HTTP client, and whose header set is the twelve default
entries, each with its one value under its canonical key, and `X-Fb-Lsd` with the one
value `t`. -/
theorem NewClient_WithToken (DefaultClient : HTTPClient) (ctx : Context) (t : GoString)
    (ht : t ≠ []) :
    (NewClient DefaultClient ctx [WithToken t]).sent = [] ∧
    ∃ c, (NewClient DefaultClient ctx [WithToken t]).out = Outcome.ret (some c) none ∧
      c.token = t ∧ c.client = some DefaultClient ∧ c.header = some (expectedHeader t) ∧
      (expectedHeader t).length = 13 ∧ ((expectedHeader t).map Prod.fst).Nodup := by
  have hadd : Header.Add (some ((expectedHeader []).dropLast)) (str "X-FB-LSD") t =
      some (some (expectedHeader t)) := by
    simp only [Header.Add]
    have hk : CanonicalMIMEHeaderKey (str "X-FB-LSD") = str "X-Fb-Lsd" := by decide
    rw [hk]
    rfl
  simp only [NewClient, addAll_defaultHeaders, applyOptions, WithToken, ht, if_false, hadd]
  refine ⟨trivial, _, rfl, rfl, rfl, rfl, rfl, ?_⟩
  have hkeys : (expectedHeader t).map Prod.fst = (expectedHeader []).map Prod.fst := rfl
  rw [hkeys]
  decide

/-- C4: when the page `http.DefaultClient` returns reads as a body in which the first
occurrence of `"token"` (quotes included) is at offset `p`, and the body has at least
`p+31` bytes, `getToken` returns the 22 bytes `body[p+9 .. p+31)` and a nil error; in
particular a body `pre ++ "token":" ++ T ++ rest` with `T` of 22 bytes and the first
occurrence at the end of `pre` gives `T`. -/
theorem getToken_returns_token (dc : HTTPClient) (c : Client) (ctx : Context)
    (req : Request) (sc : Int) (body : Slice) (p : Nat)
    (hsent : (getToken dc c ctx).sent = [(dc.id, req)])
    (hresp : (dc.Do req).resp = Except.ok { StatusCode := sc, Body := (body, none) })
    (hp : bytesIndex body.data (str "\"token\"") = p)
    (hlen : p + 31 ≤ body.data.length) :
    (getToken dc c ctx).out = Outcome.ret ((body.data.drop (p + 9)).take 22) none ∧
    ((body.data.drop (p + 9)).take 22).length = 22 ∧
    ∀ pre T rest : GoString, body.data = pre ++ str "\"token\":\"" ++ T ++ rest →
      T.length = 22 → pre.length = p → (getToken dc c ctx).out = Outcome.ret T none := by
  have hout : (getToken dc c ctx).out =
      Outcome.ret ((body.data.drop (p + 9)).take 22) none := by
    cases ctx with
    | nil => rw [(getToken_nil dc c).1] at hsent; cases hsent
    | live =>
      rw [getToken_sent_live] at hsent
      cases hsent
      rw [getToken_live, hresp]
      simp only [hp]
      have hs := Slice.slice_data body (p + 9) (p + 31) (by omega) hlen
      have e1 : ((p : Int) + 9) = ((p + 9 : Nat) : Int) := by push_cast; rfl
      have e2 : ((p : Int) + 31) = ((p + 31 : Nat) : Int) := by push_cast; rfl
      rw [e1, e2, hs]
      have e3 : p + 31 - (p + 9) = 22 := by omega
      rw [e3]
  refine ⟨hout, ?_, ?_⟩
  · rw [List.length_take, List.length_drop]; omega
  · intro pre T rest hbody hT hpre
    rw [hout, hbody, ← hpre]
    have h9 : (str "\"token\":\"").length = 9 := by decide
    have e : pre ++ str "\"token\":\"" ++ T ++ rest = (pre ++ str "\"token\":\"") ++ (T ++ rest) := by
      simp [List.append_assoc]
    rw [e, List.drop_left' (by rw [List.length_append, h9]), List.take_left' hT]

/-- C8: for every list of options and whatever the network answers, a client that
`NewClient` returns with a nil error has a non-empty token, and the last value of its
`X-Fb-Lsd` header is that token. -/
theorem NewClient_token_nonempty (DefaultClient : HTTPClient) (ctx : Context)
    (opts : List ClientOption) (c : Client)
    (h : (NewClient DefaultClient ctx opts).out = Outcome.ret (some c) none) :
    c.token ≠ [] ∧ (Header.Values c.header (str "X-FB-LSD")).getLast? = some c.token ∧
    CanonicalMIMEHeaderKey (str "X-FB-LSD") = str "X-Fb-Lsd" := by
  refine ⟨?_, ?_, by decide⟩
  all_goals
    simp only [NewClient, addAll_defaultHeaders] at h
    cases hopt : applyOptions opts
        { client := some DefaultClient, header := some (expectedHeader []).dropLast,
          token := [] } with
    | none => rw [hopt] at h; cases h
    | some c1 =>
      rw [hopt] at h
      simp only at h
      by_cases htok : c1.token = []
      · simp only [htok, if_true] at h
        cases hget : (getToken DefaultClient c1 ctx).out with
        | panic msg => rw [hget] at h; cases h
        | ret t err =>
          rw [hget] at h
          cases err with
          | some e => cases h
          | none =>
            simp only at h
            have hlen := getToken_length DefaultClient c1 ctx t hget
            cases hadd : Header.Add c1.header (str "X-FB-LSD") t with
            | none => rw [hadd] at h; cases h
            | some h1 =>
              rw [hadd] at h
              cases h
              first
              | (intro h0; simp only at h0; rw [h0] at hlen; cases hlen)
              | exact Header.Values_Add _ _ _ _ hadd
      · simp only [htok, if_false] at h
        cases hadd : Header.Add c1.header (str "X-FB-LSD") c1.token with
        | none => rw [hadd] at h; cases h
        | some h1 =>
          rw [hadd] at h
          cases h
          first
          | exact htok
          | exact Header.Values_Add _ _ _ _ hadd

/-- C2: each of the five query methods, for a client with token `t` and an integer `n`
(context, transport and, but for `GetLikers`, header map not nil), sends exactly one
request, a POST to the API URL whose body is the form with exactly the three fields
`doc_id`, `lsd` and `variables`: `lsd` is `t`, `doc_id` is the fixed document ID of
the method, `variables` is the JSON object with the one key of the method (`userID`,
`postID` or `mediaID`) and the decimal `n`.  The five document IDs are the numbers of
the claim, and distinct. -/
theorem query_form_fields (q : Query) (c : Client) (cl : HTTPClient) (ctx : Context)
    (n : Int) (hctx : ctx ≠ Context.nil) (hcl : c.client = some cl)
    (hh : q = Query.GetLikers ∨ c.header ≠ none) :
    ∃ req, (q.run c ctx n).1.sent = [(cl.id, req)] ∧
    req.Method = str "POST" ∧ req.URL = apiURL ∧
    req.Body = str "doc_id=" ++ q.docID ++ str "&lsd=" ++ QueryEscape c.token ++
      str "&variables=" ++
      QueryEscape (str "\x7b\"" ++ q.key ++ str "\":" ++ itoa n ++ str "\x7d") ∧
    ParseQuery req.Body =
      ([(str "doc_id", [q.docID]), (str "lsd", [c.token]),
        (str "variables", [str "\x7b\"" ++ q.key ++ str "\":" ++ itoa n ++ str "\x7d"])], none) ∧
    (Query.GetUser.docID = str "23996318473300828" ∧
     Query.GetUserThreads.docID = str "6232751443445612" ∧
     Query.GetUserReplies.docID = str "6307072669391286" ∧
     Query.GetPost.docID = str "5587632691339264" ∧
     Query.GetLikers.docID = str "9360915773983802") ∧
    (Query.GetUser.key = str "userID" ∧ Query.GetUserThreads.key = str "userID" ∧
     Query.GetUserReplies.key = str "userID" ∧ Query.GetPost.key = str "postID" ∧
     Query.GetLikers.key = str "mediaID") ∧
    ∀ q1 q2 : Query, q1.docID = q2.docID → q1 = q2 := by
  obtain ⟨h, hsent, _⟩ := run_out q c cl ctx n hctx hcl hh
  refine ⟨postRequest h c.token q.docID [(q.key, n)], hsent, ?_⟩
  generalize hreq0 : postRequest h c.token q.docID [(q.key, n)] = req
  have hreq : req = postRequest req.Header c.token q.docID [(q.key, n)] := by
    rw [← hreq0]; rfl
  have hbody : req.Body = Values.Encode
      (Values.Set (Values.Set (Values.Set [] (str "lsd") c.token) (str "doc_id") q.docID)
        (str "variables") (str "\x7b\"" ++ q.key ++ str "\":" ++ itoa n ++ str "\x7d")) := by
    rw [hreq, postRequest, jsonMarshal_single]
  refine ⟨by rw [hreq]; rfl, by rw [hreq]; rfl, ?_, ?_, ?_, ?_, ?_⟩
  · rw [hbody, Encode_form]
    have e1 : formPiece (str "doc_id") q.docID = str "doc_id=" ++ q.docID := by
      rw [formPiece, QueryEscape_docID]
      have : QueryEscape (str "doc_id") ++ [61] = str "doc_id=" := by decide
      rw [← this]; simp
    have e2 : ∀ v, (38 : UInt8) :: formPiece (str "lsd") v = str "&lsd=" ++ QueryEscape v := by
      intro v
      have : (38 : UInt8) :: QueryEscape (str "lsd") ++ [61] = str "&lsd=" := by decide
      rw [← this, formPiece]; simp
    have e3 : ∀ v, (38 : UInt8) :: formPiece (str "variables") v =
        str "&variables=" ++ QueryEscape v := by
      intro v
      have : (38 : UInt8) :: QueryEscape (str "variables") ++ [61] = str "&variables=" := by
        decide
      rw [← this, formPiece]; simp
    have e4 : ∀ A F R : GoString, A ++ 38 :: (F ++ R) = A ++ ((38 :: F) ++ R) := by
      intro A F R; simp
    rw [e1, e3, e4, e2]
    simp only [List.append_assoc]
  · rw [hbody, ParseQuery_form]
  · exact ⟨rfl, rfl, rfl, rfl, rfl⟩
  · exact ⟨rfl, rfl, rfl, rfl, rfl⟩
  · intro q1 q2
    cases q1 <;> cases q2 <;> decide

set_option maxRecDepth 100000 in
/-- Witness of C1: `GetUser` on the client of the tests sends its one request to the
fake transport and returns the fixture the fake answers with. -/
theorem query_returns_body_witness :
    (Query.GetUser.run testClient Context.live 25025320).1.sent = [(1, testUserRequest)] ∧
    (Query.GetUser.run testClient Context.live 25025320).1.out =
      Outcome.ret (some (readAll (jsonFixture Query.GetUser))) none := by
  obtain ⟨req, hsent, hout⟩ :=
    query_returns_body Query.GetUser testClient fakeClient Context.live 25025320
      (by decide) rfl (Or.inr (by decide))
  have h1 : (Query.GetUser.run testClient Context.live 25025320).1.sent =
      [(1, testUserRequest)] := by decide
  have h2 : req = testUserRequest := by
    rw [h1] at hsent
    simp only [List.cons.injEq, Prod.mk.injEq, and_true] at hsent
    exact hsent.2.symm
  subst h2
  exact ⟨h1, hout 200 (readAll (jsonFixture Query.GetUser)) (by rfl) (by decide)⟩

set_option maxRecDepth 100000 in
/-- Witness of C5: a transport that answers 429 makes `GetPost` fail with
`status code 429` and a nil body. -/
theorem query_fails_iff_status_witness :
    (Query.GetPost.run busyClient Context.live 3152079361880880077).1.sent =
      [(3, testPostRequest)] ∧
    (Query.GetPost.run busyClient Context.live 3152079361880880077).1.out =
      Outcome.ret none (some (GoError.errorString "status code 429")) := by
  obtain ⟨req, hsent, hout⟩ :=
    query_fails_iff_status Query.GetPost busyClient
      (plainClient 3 (respond 429 (str "slow down"))) Context.live 3152079361880880077
      (by decide) rfl (Or.inr (by decide))
  have h1 : (Query.GetPost.run busyClient Context.live 3152079361880880077).1.sent =
      [(3, testPostRequest)] := by decide
  have h2 : req = testPostRequest := by
    rw [h1] at hsent
    simp only [List.cons.injEq, Prod.mk.injEq, and_true] at hsent
    exact hsent.2.symm
  subst h2
  exact ⟨h1, (hout 429 (readAll (str "slow down")) (by rfl)).2.1 (by decide)⟩

set_option maxRecDepth 100000 in
/-- Witness of C2: the request `GetPost` sends for the client and post ID of the tests. -/
theorem query_form_fields_witness :
    (Query.GetPost.run testClient Context.live 3152079361880880077).1.sent =
      [(1, testPostRequest)] ∧
    testPostRequest.Body =
      str "doc_id=5587632691339264&lsd=OqhxMWDlJViVPLZiN5p9Un&variables=%7B%22postID%22%3A3152079361880880077%7D" ∧
    ParseQuery testPostRequest.Body =
      ([(str "doc_id", [str "5587632691339264"]), (str "lsd", [str "OqhxMWDlJViVPLZiN5p9Un"]),
        (str "variables", [str "\x7b\"postID\":3152079361880880077\x7d"])], none) := by
  obtain ⟨req, hsent, h⟩ :=
    query_form_fields Query.GetPost testClient fakeClient Context.live 3152079361880880077
      (by decide) rfl (Or.inr (by decide))
  have h1 : (Query.GetPost.run testClient Context.live 3152079361880880077).1.sent =
      [(1, testPostRequest)] := by decide
  have h2 : req = testPostRequest := by
    rw [h1] at hsent
    simp only [List.cons.injEq, Prod.mk.injEq, and_true] at hsent
    exact hsent.2.symm
  subst h2
  exact ⟨h1, h.2.2.1.trans (by decide), h.2.2.2.1.trans (by decide)⟩

set_option maxRecDepth 100000 in
/-- Witness of C4: the page of the tests, behind `http.DefaultClient`. -/
theorem getToken_returns_token_witness :
    (getToken pageClient testClient Context.live).out = Outcome.ret testToken none :=
  (getToken_returns_token pageClient testClient Context.live tokenRequest 200
    (readAll tokenPage) 19 (by decide) (by rfl) (by decide) (by decide)).2.2
    (str "<script>\x7b\"config\":\x7b") testToken (str "\"\x7d,\"x\":1\x7d</script>")
    (by decide) (by decide) (by decide)

/-- Witness of C6: the token of the tests. -/
theorem NewClient_WithToken_witness :
    (NewClient pageClient Context.live [WithToken testToken]).sent = [] ∧
    ∃ c, (NewClient pageClient Context.live [WithToken testToken]).out =
        Outcome.ret (some c) none ∧
      c.token = testToken ∧ c.client = some pageClient ∧
      c.header = some (expectedHeader testToken) ∧
      (expectedHeader testToken).length = 13 ∧
      ((expectedHeader testToken).map Prod.fst).Nodup :=
  NewClient_WithToken pageClient Context.live testToken (by decide)

set_option maxRecDepth 100000 in
/-- Witness of C8: `WithToken("")` makes `NewClient` fetch the token. -/
theorem NewClient_token_nonempty_witness :
    testToken ≠ [] ∧
    (Header.Values (some (expectedHeader testToken)) (str "X-FB-LSD")).getLast? =
      some testToken ∧
    CanonicalMIMEHeaderKey (str "X-FB-LSD") = str "X-Fb-Lsd" :=
  NewClient_token_nonempty pageClient Context.live [WithToken []]
    { client := some pageClient, header := some (expectedHeader testToken),
      token := testToken } (by rfl)

set_option maxRecDepth 100000 in
/-- C3 (the code fails it): `GetUserID` never returns a nil error, whatever the client,
the name and the page; on a page with `"user_id":"25025320"` the pattern matches with
the group `25025320`, and the method returns 0 and the error of `binary.Read`, which
does not accept a `*int`.  (Into an `int64`, `binary.Read` would put the eight ASCII
bytes of the digits, the number 3617850867861107248, not their decimal value.) -/
theorem GetUserID_never_succeeds :
    (∀ (c : Client) (ctx : Context) (name : GoString) (v : Int),
      (GetUserID c ctx name).1.out ≠ Outcome.ret v none) ∧
    FindSubmatch userIDPage = some [str "\"user_id\":\"25025320\"", str "25025320"] ∧
    (GetUserID userIDClient Context.live (str "instagram")).1.out =
      Outcome.ret 0 (some (GoError.errorString "binary.Read: invalid type *int")) ∧
    binaryRead (str "25025320") DataType.int64 0 = (3617850867861107248, none) := by
  refine ⟨?_, by decide, by decide, by decide⟩
  intro c ctx name v h
  simp only [GetUserID, binaryRead_int] at h
  repeat' split at h
  all_goals cases h

set_option maxRecDepth 100000 in
/-- C7 (the code fails it): with `WithClient(c)` and no token, the token request goes
to `http.DefaultClient`, never to `c`.  With the fake transport of the tests as `c`:
when nothing is behind `http.DefaultClient`, `NewClient` fails; when another page is,
the client gets the token of that page, not the token of the fake's fixture. -/
theorem NewClient_WithClient_fetches_with_DefaultClient :
    (∀ (dc : HTTPClient) (cl : Option HTTPClient),
      (NewClient dc Context.live [WithClient cl]).sent = [(dc.id, tokenRequest)]) ∧
    (NewClient (plainClient 0 noNetwork) Context.live [WithClient (some fakeClient)]).sent =
      [(0, tokenRequest)] ∧
    (NewClient (plainClient 0 noNetwork) Context.live [WithClient (some fakeClient)]).out =
      Outcome.ret none (some (GoError.external "dial tcp: network is unreachable")) ∧
    (NewClient (plainClient 0 (respond 200 otherTokenPage)) Context.live
        [WithClient (some fakeClient)]).out =
      Outcome.ret (some { client := some fakeClient,
                          header := some (expectedHeader (str "AAAAAAAAAAAAAAAAAAAAAA")),
                          token := str "AAAAAAAAAAAAAAAAAAAAAA" }) none ∧
    str "AAAAAAAAAAAAAAAAAAAAAA" ≠ testToken := by
  refine ⟨?_, by decide, by rfl, by rfl, by decide⟩
  intro dc cl
  simp only [NewClient, addAll_defaultHeaders, applyOptions, WithClient, if_true]
  repeat' split
  all_goals exact getToken_sent_live dc _

set_option maxRecDepth 100000 in
/-- C9 (the code fails it): on the client of the tests, whose fake transport answers the
request of `GetUserID` with a 404 and an empty body, `GetUserID` panics: it indexes the
nil result of `FindSubmatch`.  `getToken` panics on a page that ends in `"token"` and
fills its backing array: the slice expression is out of range. -/
theorem GetUserID_panics_without_match :
    (GetUserID testClient Context.live (str "instagram")).1.out =
      Outcome.panic "index out of range [1] with length 0" ∧
    (GetUserID testClient Context.live (str "instagram")).1.sent.map
        (fun e => (fakeClient.Do e.2).resp) =
      [Except.ok { StatusCode := 404, Body := (readAll [], none) }] ∧
    (getToken (plainClient 0 (fun _ => Except.ok { StatusCode := 200, Body := (fullPage, none) }))
        testClient Context.live).out =
      Outcome.panic "slice bounds out of range" := by
  refine ⟨by decide, by rfl, by decide⟩

set_option maxRecDepth 100000 in
/-- C10 (the code fails it for `GetLikers`): `GetUserID`, `GetUser`, `GetUserThreads`,
`GetUserReplies` and `GetPost` leave the client as it was, and `GetLikers` leaves its
token and transport; but `GetLikers` hands the client's own header map to the request,
so a client with a cookie jar gets the jar's cookie into its header set, and the
second call sends it and adds it again. -/
theorem GetLikers_shares_header :
    (∀ (c : Client) (ctx : Context) (n : Int) (name : GoString),
      (GetUserID c ctx name).2 = c ∧ (GetUser c ctx n).2 = c ∧
      (GetUserThreads c ctx n).2 = c ∧ (GetUserReplies c ctx n).2 = c ∧
      (GetPost c ctx n).2 = c ∧
      (GetLikers c ctx n).2.token = c.token ∧ (GetLikers c ctx n).2.client = c.client) ∧
    cookieClient.header = some (expectedHeader testToken) ∧
    (GetLikers cookieClient Context.live 1).2.header = some headerAfterLikers ∧
    (GetLikers (GetLikers cookieClient Context.live 1).2 Context.live 1).1.sent.map
        (fun e => e.2.Header) = [some headerAfterLikers] ∧
    (GetLikers (GetLikers cookieClient Context.live 1).2 Context.live 1).2.header =
      some (expectedHeader testToken ++ [(str "Cookie", [str "sid=1; sid=1"])]) ∧
    (GetUser cookieClient Context.live 1).2.header = some (expectedHeader testToken) := by
  refine ⟨?_, rfl, by decide, by decide, by decide, by decide⟩
  intro c ctx n name
  refine ⟨?_, ?_, ?_, ?_, ?_, rfl, rfl⟩
  · simp only [GetUserID]
    repeat' split
    all_goals rfl
  · simp only [GetUser]; split <;> rfl
  · simp only [GetUserThreads]; split <;> rfl
  · simp only [GetUserReplies]; split <;> rfl
  · simp only [GetPost]; split <;> rfl

end Threads
